import Mathlib

/-!
Verification of the order/catalog/chat/report core of `server_full_final.py`
(e-commerce chatbot service).

The Python handlers are shallowly embedded as pure Lean functions over an
explicit `Store` state (products, orders, chat history).  Python strings are
modelled as Lean `String` (a list of characters); the ASCII-relevant parts of
Python's `str.strip`, `str.upper`, `str.lower`, `str.split` and the regex
`re.sub(r"[^\d]", "", s)` are modelled by the `py*` helpers below.  Python's
`float` tax arithmetic (`round(unit * (1 + TAX_RATE))` with `TAX_RATE = 0.07`)
is modelled exactly over `ℚ` with round-half-to-even (`pyRound`), which agrees
with the Python computation on all values exercised here.
-/

/-! ### String helpers (Python string operations) -/

/-- Python `str.strip()` on the leading side followed by the trailing side
(whitespace removal from both ends). -/
def stripWs (l : List Char) : List Char :=
  ((l.dropWhile Char.isWhitespace).reverse.dropWhile Char.isWhitespace).reverse

/-- Python `s.strip()`. -/
def pyStrip (s : String) : String := ⟨stripWs s.data⟩

/-- Python `s.upper()` (ASCII letters; other characters are unchanged). -/
def pyUpper (l : List Char) : List Char := l.map Char.toUpper

/-- Python `s.lower()` (ASCII letters; other characters are unchanged). -/
def pyLower (l : List Char) : List Char := l.map Char.toLower

/-- Python `needle in haystack` substring containment test. -/
def strIn (needle : List Char) : List Char → Bool
  | [] => needle.isEmpty
  | c :: t => needle.isPrefixOf (c :: t) || strIn needle t

/-- Worker for `splitWs`; `acc` holds the current token reversed. -/
def splitWsAux : List Char → List Char → List (List Char)
  | [], acc => if acc.isEmpty then [] else [acc.reverse]
  | c :: rest, acc =>
    if c.isWhitespace then
      if acc.isEmpty then splitWsAux rest [] else acc.reverse :: splitWsAux rest []
    else splitWsAux rest (c :: acc)

/-- Python `s.split()`: split on runs of whitespace, dropping empty tokens. -/
def splitWs (l : List Char) : List (List Char) := splitWsAux l []

/-- Python `lst[-n:]`: the most recent `n` elements of a list. -/
def takeLast (n : Nat) (l : List α) : List α := l.drop (l.length - n)

/-- Decimal value of a list of digit characters (`int(s)` on a digit string). -/
def digitsVal (l : List Char) : Nat :=
  l.foldl (fun a c => 10 * a + (c.toNat - 48)) 0

/-- Source `parse_price_any(p)`: strip all non-digit characters and parse the
remaining digit string as an integer, defaulting to `0` when no digit remains
(`re.sub(r"[^\d]", "", str(p))`, then `int(s) if s else 0`). -/
def parse_price_any (p : String) : Nat :=
  let s := p.data.filter Char.isDigit
  if s.isEmpty then 0 else digitsVal s

/-- The integer formed by concatenating the digit characters of a string, as
the specification phrases it (all non-digit characters stripped). -/
def digitConcatVal (s : String) : Nat := digitsVal (s.data.filter Char.isDigit)

/-- Python `round` to the nearest integer, ties to even, on exact rationals. -/
def pyRound (q : ℚ) : ℤ :=
  let f : ℤ := q.floor
  let r : ℚ := q - (f : ℚ)
  if r < 1 / 2 then f
  else if 1 / 2 < r then f + 1
  else if f % 2 = 0 then f else f + 1

/-! ### Configuration defaults (`TAX_RATE`, `LOW_STOCK_THRESHOLD`) -/

/-- Default tax rate, `TAX_RATE = float(os.getenv("TAX_RATE", "0.07"))`. -/
def TAX_RATE : ℚ := 7 / 100

/-- Default low-stock threshold, `LOW_STOCK = int(os.getenv("LOW_STOCK_THRESHOLD", "3"))`. -/
def LOW_STOCK : Int := 3

/-! ### Data model -/

/-- A catalog product record. -/
structure Product where
  category : String
  name : String
  price : String
  stock : Int
  image : String
  description : String
deriving DecidableEq, Repr

/-- An order record, as built by the `/add_order` handler. -/
structure Order where
  order_id : String
  user : String
  product : String
  qty : Nat
  unit_price : Nat
  discount : ℚ
  tax : ℚ
  total : ℤ
  status : String
  created_at : String
  time : String
  category : String
deriving DecidableEq, Repr

/-- A chat-log entry `{time, user, msg, bot}`. -/
structure HistEntry where
  time : String
  user : String
  msg : String
  bot : String
deriving DecidableEq, Repr

/-- The process-wide mutable state: `products`, `orders`, `history`. -/
structure Store where
  products : List Product
  orders : List Order
  history : List HistEntry
deriving DecidableEq, Repr

/-- The seeded default catalog (used when `products.json` is empty). -/
def defaultProducts : List Product :=
  [ ⟨"ল্যাপটপ", "HP Pavilion 15", "৳65,000", 5, "", "Intel i5 • 8/512"⟩,
    ⟨"ল্যাপটপ", "Dell Inspiron 15", "৳65,000", 9, "", "i5 • 8/512 • FHD"⟩,
    ⟨"মোবাইল", "Redmi Note 13", "৳23,999", 8, "", "6/128 • 120Hz AMOLED"⟩,
    ⟨"অ্যাক্সেসরিজ", "Logitech M331 Silent", "৳1,799", 15, "", "Silent wireless mouse"⟩ ]

/-- Initial store: default catalog, no orders, empty chat log. -/
def store0 : Store := ⟨defaultProducts, [], []⟩

/-! ### The `/add_order` handler -/

/-- Result of the `/add_order` handler: 404 product-not-found, 400 out-of-stock
(`স্টক নেই`), or success carrying the created order record. -/
inductive AddOrderResult where
  | notFound
  | outOfStock
  | success (rec : Order)
deriving DecidableEq, Repr

/-- Whether an `AddOrderResult` is the success case. -/
def AddOrderResult.isSuccess : AddOrderResult → Bool
  | .success _ => true
  | _ => false

/-- The order record of a successful result, if any. -/
def AddOrderResult.getOrder : AddOrderResult → Option Order
  | .success r => some r
  | _ => none

/-- In-place mutation `prod["stock"] = stock - 1` of the first product whose
name matches (the object found by `next(...)`). -/
def setStockFirst : List Product → String → Int → List Product
  | [], _, _ => []
  | p :: rest, nm, s =>
    if p.name == nm then { p with stock := s } :: rest
    else p :: setStockFirst rest nm s

/-- First catalog product whose `name` exactly equals `nm`
(`next((p for p in products if p["name"]==name), None)`). -/
def findProd (st : Store) (nm : String) : Option Product :=
  st.products.find? (fun p => p.name == nm)

/-- The `/add_order` handler.  `taxRate` is the configured `TAX_RATE` and
`now` the `datetime.now().isoformat(timespec="seconds")` timestamp; the JSON
fields `product_name` and `user` are passed through `.strip()` (with the
`or "guest"` default for a falsy user). -/
def add_order (taxRate : ℚ) (now : String) (st : Store)
    (productName userIn : String) : Store × AddOrderResult :=
  let nm := pyStrip productName
  let user := pyStrip (if userIn = "" then "guest" else userIn)
  match st.products.find? (fun p => p.name == nm) with
  | none => (st, .notFound)
  | some prod =>
    if prod.stock ≤ 0 then (st, .outOfStock)
    else
      let unit := parse_price_any prod.price
      let total := pyRound ((unit : ℚ) * (1 + taxRate))
      let oid := "ORDER" ++ Nat.repr (1000 + st.orders.length + 1)
      let newOrder : Order :=
        { order_id := oid, user := user, product := nm, qty := 1,
          unit_price := unit, discount := 0, tax := taxRate, total := total,
          status := "✅ Confirmed", created_at := now, time := now,
          category := prod.category }
      (⟨setStockFirst st.products nm (prod.stock - 1),
        st.orders ++ [newOrder], st.history⟩, .success newOrder)

/-- Run a sequence of `/add_order` requests `(now, product_name, user)` in
order, threading the store (one store lifetime). -/
def runOrders (taxRate : ℚ) : List (String × String × String) → Store → Store
  | [], st => st
  | (now, nm, u) :: rest, st =>
    runOrders taxRate rest (add_order taxRate now st nm u).1

/-! ### The `/chat` handler -/

/-- The classification branch taken by the chat responder. -/
inductive ChatBranch where
  | orderStatus
  | listing
  | productCard
  | fallback
deriving DecidableEq, Repr

/-- Branch 1 of the chat responder: extract the first whitespace-delimited
token of the uppercased message starting with `"ORDER"` and look the order up
case-insensitively, replying with its status or a not-found message. -/
def orderStatusReply (os : List Order) (up : List Char) : String :=
  let tokens := splitWs up
  let oid := tokens.find? (fun t => "ORDER".data.isPrefixOf t)
  match os.find? (fun o => pyUpper o.order_id.data == pyUpper (oid.getD [])) with
  | some o => o.status
  | none => "❌ এই অর্ডার আইডি পাওয়া যায়নি।"

/-- Branch 2 of the chat responder: render the full catalog listing. -/
def listingReply (ps : List Product) : String :=
  let items := ps.foldl
    (fun acc p => acc ++ "<li>" ++ p.category ++ " — <b>" ++ p.name ++ "</b> ("
      ++ p.price ++ ", স্টক: " ++ toString p.stock ++ ")</li>") ""
  "<b>আমাদের প্রোডাক্ট লিস্ট:</b><ul class=\x27m-0\x27>"
    ++ (if items = "" then "<li>ফাঁকা</li>" else items) ++ "</ul>"

/-- Branch 3 of the chat responder: render a product card with a Buy Now
action for a fuzzily matched product. -/
def productCardReply (p : Product) : String :=
  let stock := p.stock
  let low := if stock ≤ LOW_STOCK
    then " <span class=\x27badge badge-low ms-1\x27>Low</span>" else ""
  let img := if p.image ≠ ""
    then "<img src=\x27/" ++ p.image ++ "\x27 class=\x27mb-2\x27 alt=\x27"
      ++ p.name ++ "\x27>"
    else ""
  "<div class=\x27product-card\x27>" ++ img ++ "<b>" ++ p.name ++ "</b>" ++ low
    ++ "<br>💰 " ++ p.price ++ " — 📦 " ++ toString stock
    ++ " স্টক<br><button class=\x27btn btn-sm btn-accent mt-1\x27 onclick=\"placeOrder(\x27"
    ++ p.name ++ "\x27)\">🛒 Buy Now</button></div>"

/-- Fixed default reply used when the generative endpoint yields nothing. -/
def fallbackDefault : String := "🤖 আমি সাহায্য করতে প্রস্তুত! প্রোডাক্টের নাম বলুন।"

/-- The keyword classification of the chat responder (rules 1-4 in order) for
a non-empty stripped message `msg`.  `ollamaResponse` stands for the external
generative endpoint: `none` models a failed call or missing `"response"` key,
in which case the fixed default reply is used. -/
def chatClassify (st : Store) (msg : String) (ollamaResponse : Option String) :
    ChatBranch × String :=
  let up := pyUpper msg.data
  if strIn "ORDER".data up then
    (.orderStatus, orderStatusReply st.orders up)
  else if strIn "লিস্ট".data msg.data || strIn "list".data (pyLower msg.data)
      || strIn "কি কি".data msg.data then
    (.listing, listingReply st.products)
  else
    match st.products.find? (fun p =>
        strIn (pyLower p.name.data) (pyLower msg.data)
        || strIn (pyLower p.category.data) (pyLower msg.data)) with
    | some found => (.productCard, productCardReply found)
    | none => (.fallback, ollamaResponse.getD fallbackDefault)

/-- Effective chat user id: `(data.get("user") or "guest").strip()`. -/
def chatUser (u : String) : String := pyStrip (if u = "" then "guest" else u)

/-- The `/chat` handler.  An empty (after stripping) message returns a fixed
reply early, before the history append; every other message is classified,
the exchange is appended to the chat log and the log is truncated to its most
recent 400 entries.  Returns the new store, the branch taken (`none` for the
empty-message early return) and the reply. -/
def chat (st : Store) (now : String) (message userIn : String)
    (ollamaResponse : Option String) : Store × Option ChatBranch × String :=
  let msg := pyStrip message
  if msg = "" then (st, none, "🙂 কিছু লিখুন")
  else
    let br := chatClassify st msg ollamaResponse
    (⟨st.products, st.orders,
      takeLast 400 (st.history ++ [⟨now, chatUser userIn, msg, br.2⟩])⟩,
     some br.1, br.2)

/-! ### The `/update_order` handler -/

/-- Update the status of the first order whose `order_id` exactly equals
`oid`, returning `none` when no order matches (the `for` loop in
`update_order` returns at the first match). -/
def updateFirstStatus : List Order → String → String → Option (List Order)
  | [], _, _ => none
  | o :: rest, oid, stat =>
    if o.order_id == oid then some ({ o with status := stat } :: rest)
    else (updateFirstStatus rest oid stat).map (o :: ·)

/-- The `/update_order` handler: both JSON fields are passed through
`.strip()`; the first order with exactly matching id gets its `status` field
overwritten (no validation of the status text); returns `false` (HTTP 404)
when no order matches. -/
def update_order (st : Store) (orderIdIn statusIn : String) : Store × Bool :=
  let oid := pyStrip orderIdIn
  let stat := pyStrip statusIn
  match updateFirstStatus st.orders oid stat with
  | some os => (⟨st.products, os, st.history⟩, true)
  | none => (st, false)

/-! ### The `/reports` handler -/

/-- The timestamp string used for report bucketing:
`o.get("created_at") or o.get("time") or ""`. -/
def orderTimeStr (o : Order) : String :=
  if o.created_at = "" then (if o.time = "" then "" else o.time)
  else o.created_at

/-- One step of the category tally `cat_count[cat] = cat_count.get(cat, 0) + 1`
on an insertion-ordered association list (a Python `dict`). -/
def bumpCat : List (String × Nat) → String → List (String × Nat)
  | [], k => [(k, 1)]
  | (k', v) :: rest, k =>
    if k' = k then (k', v + 1) :: rest else (k', v) :: bumpCat rest k

/-- Output of the `/reports` handler. -/
structure ReportOut where
  today : ℤ
  month : ℤ
  year : ℤ
  labels : List String
  counts : List Nat
deriving DecidableEq, Repr

/-- Loop body of the `/reports` handler over one order, accumulating
`(today_s, month_s, year_s, cat_count)`. -/
def reportsStep (td mp yp : List Char) (acc : ℤ × ℤ × ℤ × List (String × Nat))
    (o : Order) : ℤ × ℤ × ℤ × List (String × Nat) :=
  let t := (orderTimeStr o).data
  let ts := if td.isPrefixOf t then acc.1 + o.total else acc.1
  let ms := if mp.isPrefixOf t then acc.2.1 + o.total else acc.2.1
  let ys := if yp.isPrefixOf t then acc.2.2.1 + o.total else acc.2.2.1
  (ts, ms, ys, bumpCat acc.2.2.2 o.category)

/-- The `/reports` handler: one pass over the orders, bucketing totals by
string-prefix comparison of the timestamp against `today_str` (10 chars),
`today_str[:7]` and `today_str[:4]`, and tallying order counts per category
in first-seen order. -/
def reports (os : List Order) (todayStr : String) : ReportOut :=
  let td := todayStr.data
  let mp := td.take 7
  let yp := td.take 4
  let r := os.foldl (reportsStep td mp yp) (0, 0, 0, [])
  ⟨r.1, r.2.1, r.2.2.1, r.2.2.2.map Prod.fst, r.2.2.2.map Prod.snd⟩

/-! ### Specification-side functions (used to state the claims) -/

/-- Sum of `total` over exactly the orders whose timestamp string starts with
the given prefix. -/
def sumPref (pre : List Char) (os : List Order) : ℤ :=
  ((os.filter (fun o => pre.isPrefixOf (orderTimeStr o).data)).map Order.total).sum

/-- The distinct elements of a list in first-seen order. -/
def firstSeen (cats : List String) : List String :=
  cats.foldl (fun acc c => if c ∈ acc then acc else acc ++ [c]) []

/-- Lookup in an association list, defaulting to `0` (Python
`cat_count.get(cat, 0)`). -/
def lookupC : List (String × Nat) → String → Nat
  | [], _ => 0
  | (a, v) :: rest, k => if a = k then v else lookupC rest k

/-- The decimal digit characters of `n`, most significant first. -/
def natDigits (n : Nat) : List Char :=
  if h : n < 10 then [Nat.digitChar n]
  else natDigits (n / 10) ++ [Nat.digitChar (n % 10)]
decreasing_by exact Nat.div_lt_self (by omega) (by omega)

/-- The order-id numbering scheme of `add_order`: the `k`-th order of the
collection carries id `"ORDER" + str(1000 + k + 1)`. -/
def IdScheme (os : List Order) : Prop :=
  ∀ k (hk : k < os.length),
    (os.get ⟨k, hk⟩).order_id = "ORDER" ++ Nat.repr (1000 + k + 1)

/-! ### Concrete fixtures for witnesses and counterexamples -/

/-- A fixed request timestamp. -/
def t0 : String := "2026-10-12T00:00:00"

/-- The order created by purchasing "HP Pavilion 15" from the seeded store at
time `t0` (tax rate 0.07). -/
def demoOrder : Order :=
  ⟨"ORDER1001", "guest", "HP Pavilion 15", 1, 65000, 0, 7 / 100, 69550,
   "✅ Confirmed", t0, t0, "ল্যাপটপ"⟩

/-- A store whose order collection holds exactly `demoOrder`. -/
def store1 : Store := ⟨defaultProducts, [demoOrder], []⟩

/-- A product whose price display string contains no digit characters. -/
def naProduct : Product := ⟨"গিফট", "Gift Card", "N/A", 1, "", "no price"⟩

/-- A store whose catalog holds exactly `naProduct`. -/
def storeNA : Store := ⟨[naProduct], [], []⟩

/-- The seeded "HP Pavilion 15" product. -/
def hpProduct : Product :=
  ⟨"ল্যাপটপ", "HP Pavilion 15", "৳65,000", 5, "", "Intel i5 • 8/512"⟩

/-- The "HP Pavilion 15" product with its stock run down to 0. -/
def hpProductOut : Product :=
  ⟨"ল্যাপটপ", "HP Pavilion 15", "৳65,000", 0, "", "Intel i5 • 8/512"⟩

/-- A store in which "HP Pavilion 15" is out of stock after one purchase. -/
def store0X : Store := ⟨[hpProductOut], [demoOrder], []⟩

/-- Two purchase requests that both succeed on the seeded store. -/
def demoReqs : List (String × String × String) :=
  [(t0, "HP Pavilion 15", "guest"), (t0, "Redmi Note 13", "guest")]

/-- Two order records with timestamps in different buckets, for the report
aggregator. -/
def reportOrders : List Order :=
  [demoOrder,
   ⟨"ORDER1002", "guest", "Redmi Note 13", 1, 23999, 0, 7 / 100, 25679,
    "✅ Confirmed", "2025-11-01T09:00:00", "2025-11-01T09:00:00", "মোবাইল"⟩]

/-! ### Helper lemmas -/

attribute [local semireducible] Rat.add Rat.mul Rat.inv Rat.sub

theorem parse_price_any_eq_digitConcatVal (s : String) :
    parse_price_any s = digitConcatVal s := by
  unfold parse_price_any digitConcatVal
  by_cases h : (s.data.filter Char.isDigit).isEmpty
  · rw [List.isEmpty_iff] at h
    simp [h, digitsVal]
  · simp [h]

theorem find?_setStockFirst (ps : List Product) (nm : String) (s : Int)
    (p : Product) (h : ps.find? (fun q => q.name == nm) = some p) :
    (setStockFirst ps nm s).find? (fun q => q.name == nm) =
      some { p with stock := s } := by
  induction ps with
  | nil => simp [List.find?] at h
  | cons q rest ih =>
    cases hq : q.name == nm with
    | true =>
      simp only [List.find?, hq] at h
      cases h
      simp [setStockFirst, hq, List.find?]
    | false =>
      simp only [List.find?, hq] at h
      simp only [setStockFirst, hq, Bool.false_eq_true, if_false, List.find?]
      exact ih h

/-! ### Claim C1 -/

/-- Claim C1: for every product and every call to `place_order` (the
`/add_order` handler), if the call succeeds then the product's stock after
the call equals its stock before the call minus 1, and no call succeeds when
the stock before the call is 0 (`0 < stock` is required, so stock never
becomes negative: `0 ≤ stock - 1`). -/
theorem add_order_stock_decrement (taxRate : ℚ) (now : String) (st : Store)
    (nm u : String)
    (h : (add_order taxRate now st nm u).2.isSuccess = true) :
    ∃ p, findProd st (pyStrip nm) = some p ∧ 0 < p.stock ∧ 0 ≤ p.stock - 1 ∧
      findProd (add_order taxRate now st nm u).1 (pyStrip nm) =
        some { p with stock := p.stock - 1 } := by
  cases hf : st.products.find? (fun p => p.name == pyStrip nm) with
  | none =>
    simp [add_order, hf, AddOrderResult.isSuccess] at h
  | some prod =>
    by_cases hs : prod.stock ≤ 0
    · simp [add_order, hf, if_pos hs, AddOrderResult.isSuccess] at h
    · refine ⟨prod, by simpa [findProd] using hf, by omega, by omega, ?_⟩
      show findProd (add_order taxRate now st nm u).1 (pyStrip nm) = _
      simp only [add_order, hf, if_neg hs, findProd]
      exact find?_setStockFirst st.products (pyStrip nm) (prod.stock - 1) prod hf

/-- Witness for C1 at a concrete input: buying "HP Pavilion 15" from the
seeded store succeeds and decrements its stock from 5 to 4. -/
theorem add_order_stock_decrement_witness :
    ∃ p, findProd store0 (pyStrip "HP Pavilion 15") = some p ∧
      0 < p.stock ∧ 0 ≤ p.stock - 1 ∧
      findProd (add_order TAX_RATE t0 store0 "HP Pavilion 15" "guest").1
        (pyStrip "HP Pavilion 15") = some { p with stock := p.stock - 1 } :=
  add_order_stock_decrement TAX_RATE t0 store0 "HP Pavilion 15" "guest"
    (by decide)

/-! ### Claim C2 -/

/-- Claim C2: a `place_order` call on a product whose current stock is `≤ 0`
fails with the out-of-stock error and leaves the state unchanged: the stock
value and the length of the orders collection stay the same (no order record
is appended). -/
theorem add_order_out_of_stock (taxRate : ℚ) (now : String) (st : Store)
    (nm u : String) (p : Product)
    (hp : findProd st (pyStrip nm) = some p) (hs : p.stock ≤ 0) :
    add_order taxRate now st nm u = (st, .outOfStock) ∧
    findProd (add_order taxRate now st nm u).1 (pyStrip nm) = some p ∧
    (add_order taxRate now st nm u).1.orders.length = st.orders.length := by
  unfold findProd at hp
  have he : add_order taxRate now st nm u = (st, .outOfStock) := by
    simp [add_order, hp, if_pos hs]
  exact ⟨he, by rw [he]; exact hp, by rw [he]⟩

/-- Witness for C2: after buying the single "HP Pavilion 15" of a one-in-stock
store, a second purchase fails out-of-stock and changes nothing. -/
theorem add_order_out_of_stock_witness :
    add_order TAX_RATE t0 store0X "HP Pavilion 15" "guest" =
      (store0X, .outOfStock) ∧
    findProd (add_order TAX_RATE t0 store0X "HP Pavilion 15" "guest").1
      (pyStrip "HP Pavilion 15") = some hpProductOut ∧
    (add_order TAX_RATE t0 store0X "HP Pavilion 15" "guest").1.orders.length =
      store0X.orders.length :=
  add_order_out_of_stock TAX_RATE t0 store0X "HP Pavilion 15" "guest"
    hpProductOut (by decide) (by decide)

/-! ### Claim C3 -/

/-- Claim C3: every successful `place_order` call creates an order whose
`unit_price` is the integer formed by concatenating the digit characters of
the product's price display string (all non-digit characters stripped) and
whose `total` is `round(unit_price * (1 + tax_rate))`; in particular, with
price "৳65,000" and tax rate 0.07, `unit_price = 65000` and `total = 69550`. -/
theorem add_order_price_total (taxRate : ℚ) (now : String) (st : Store)
    (nm u : String) (p : Product) (rec : Order)
    (hp : findProd st (pyStrip nm) = some p)
    (h : (add_order taxRate now st nm u).2 = .success rec) :
    rec.unit_price = digitConcatVal p.price ∧
    rec.total = pyRound ((rec.unit_price : ℚ) * (1 + taxRate)) ∧
    parse_price_any "৳65,000" = 65000 ∧
    ((add_order TAX_RATE t0 store0 "HP Pavilion 15" "guest").2.getOrder).map
      Order.unit_price = some 65000 ∧
    ((add_order TAX_RATE t0 store0 "HP Pavilion 15" "guest").2.getOrder).map
      Order.total = some 69550 := by
  unfold findProd at hp
  by_cases hs : p.stock ≤ 0
  · simp [add_order, hp, if_pos hs] at h
  · simp only [add_order, hp, if_neg hs] at h
    cases h
    exact ⟨parse_price_any_eq_digitConcatVal p.price, rfl,
      by decide, by decide, by decide⟩

/-- Witness for C3: the concrete purchase of "HP Pavilion 15" at tax rate
0.07 yields `unit_price = 65000` and `total = 69550`. -/
theorem add_order_price_total_witness :
    demoOrder.unit_price = digitConcatVal hpProduct.price ∧
    demoOrder.total = pyRound ((demoOrder.unit_price : ℚ) * (1 + TAX_RATE)) ∧
    parse_price_any "৳65,000" = 65000 ∧
    ((add_order TAX_RATE t0 store0 "HP Pavilion 15" "guest").2.getOrder).map
      Order.unit_price = some 65000 ∧
    ((add_order TAX_RATE t0 store0 "HP Pavilion 15" "guest").2.getOrder).map
      Order.total = some 69550 :=
  add_order_price_total TAX_RATE t0 store0 "HP Pavilion 15" "guest"
    hpProduct demoOrder (by decide) (by decide)

/-! ### Claim C5 (corrected) -/

/-- Counterexample to claim C5 as stated: the `/add_order` handler strips the
requested product name before the exact-match lookup, so for the request
`" HP Pavilion 15"` (leading whitespace) no catalog product's name is
character-for-character equal to the requested `product_name`, yet the call
does not fail with `NotFound`. -/
theorem add_order_not_found_iff_cex :
    (∀ p ∈ store0.products, p.name ≠ " HP Pavilion 15") ∧
    (add_order TAX_RATE t0 store0 " HP Pavilion 15" "guest").2 ≠
      .notFound := by
  constructor
  · decide
  · decide

/-- Claim C5 (amended): `place_order` fails with `NotFound` if and only if no
catalog product's name exactly equals the whitespace-stripped requested
`product_name`; no case-insensitive or substring matching is applied, so the
lowercased name "hp pavilion 15", which the fuzzy chat lookup resolves to a
product card, yields `NotFound` from `place_order`. -/
theorem add_order_not_found_iff (taxRate : ℚ) (now : String) (st : Store)
    (nm u : String) :
    ((add_order taxRate now st nm u).2 = .notFound ↔
      findProd st (pyStrip nm) = none) ∧
    (chat store0 t0 "hp pavilion 15" "guest" none).2.1 =
      some .productCard ∧
    (add_order TAX_RATE t0 store0 "hp pavilion 15" "guest").2 =
      .notFound := by
  refine ⟨?_, by decide, by decide⟩
  unfold findProd
  cases hf : st.products.find? (fun p => p.name == pyStrip nm) with
  | none => simp [add_order, hf]
  | some prod =>
    by_cases hs : prod.stock ≤ 0
    · simp [add_order, hf, if_pos hs]
    · simp [add_order, hf, if_neg hs]

/-! ### Claim C10 -/

/-- Claim C10: price parsing is total and never fails — for every input
string `parse_price_any` returns a non-negative integer, and on a string with
no digit characters it returns 0; consequently `place_order` on an in-stock
product with a digit-free price string still succeeds, producing an order
with `unit_price = 0` and `total = 0` rather than an error. -/
theorem parse_price_any_total_safe :
    (∀ s : String, 0 ≤ parse_price_any s ∧
      ((∀ c ∈ s.data, c.isDigit = false) → parse_price_any s = 0)) ∧
    (∀ (taxRate : ℚ) (now : String) (st : Store) (nm u : String)
      (p : Product),
      findProd st (pyStrip nm) = some p →
      (∀ c ∈ p.price.data, c.isDigit = false) →
      0 < p.stock →
      ∃ rec, (add_order taxRate now st nm u).2 = .success rec ∧
        rec.unit_price = 0 ∧ rec.total = 0 ∧
        (add_order taxRate now st nm u).1.orders = st.orders ++ [rec]) := by
  have hparse : ∀ s : String, (∀ c ∈ s.data, c.isDigit = false) →
      parse_price_any s = 0 := by
    intro s hc
    unfold parse_price_any
    have : s.data.filter Char.isDigit = [] := by
      simp only [List.filter_eq_nil_iff]
      intro c hcm
      simp [hc c hcm]
    simp [this]
  refine ⟨fun s => ⟨Nat.zero_le _, hparse s⟩, ?_⟩
  intro taxRate now st nm u p hp hc hstock
  unfold findProd at hp
  have hns : ¬p.stock ≤ 0 := by omega
  refine ⟨{ order_id := "ORDER" ++ Nat.repr (1000 + st.orders.length + 1),
            user := pyStrip (if u = "" then "guest" else u),
            product := pyStrip nm, qty := 1,
            unit_price := parse_price_any p.price, discount := 0,
            tax := taxRate,
            total := pyRound ((parse_price_any p.price : ℚ) * (1 + taxRate)),
            status := "✅ Confirmed", created_at := now, time := now,
            category := p.category }, ?_, ?_, ?_, ?_⟩
  · simp [add_order, hp, if_neg hns]
  · show parse_price_any p.price = 0
    exact hparse p.price hc
  · show pyRound ((parse_price_any p.price : ℚ) * (1 + taxRate)) = 0
    rw [hparse p.price hc]
    rw [Nat.cast_zero, zero_mul]
    decide
  · simp [add_order, hp, if_neg hns]

/-- Witness for C10: buying the digit-free-priced "Gift Card" succeeds with
`unit_price = 0` and `total = 0`. -/
theorem parse_price_any_total_safe_witness :
    (0 ≤ parse_price_any "N/A" ∧ parse_price_any "N/A" = 0) ∧
    (∃ rec, (add_order TAX_RATE t0 storeNA "Gift Card" "guest").2 =
        .success rec ∧
      rec.unit_price = 0 ∧ rec.total = 0 ∧
      (add_order TAX_RATE t0 storeNA "Gift Card" "guest").1.orders =
        storeNA.orders ++ [rec]) :=
  ⟨⟨(parse_price_any_total_safe.1 "N/A").1,
    (parse_price_any_total_safe.1 "N/A").2 (by decide)⟩,
   parse_price_any_total_safe.2 TAX_RATE t0 storeNA "Gift Card" "guest"
     naProduct (by decide) (by decide) (by decide)⟩

/-! ### Claim C6 -/

/-- Claim C6: for every chat message whose uppercased (stripped, as the
handler normalizes it) form contains the substring "ORDER", the responder
takes the order-status branch — extracting the first whitespace-delimited
token starting with "ORDER" and replying with that order's status or a
not-found message — and never the product-card branch, even if the message
also contains a product name or category (rule 1 precedes rule 3). -/
theorem chat_order_precedence (st : Store) (now message userIn : String)
    (oresp : Option String)
    (h : strIn "ORDER".data (pyUpper (pyStrip message).data) = true) :
    (chat st now message userIn oresp).2.1 = some .orderStatus ∧
    (chat st now message userIn oresp).2.1 ≠ some .productCard ∧
    (chat st now message userIn oresp).2.2 =
      orderStatusReply st.orders (pyUpper (pyStrip message).data) := by
  have hne : ¬pyStrip message = "" := by
    intro he
    rw [he] at h
    exact absurd h (by decide)
  refine ⟨?_, ?_, ?_⟩ <;> simp [chat, hne, chatClassify, h]

/-- Witness for C6: the message "ORDER1001 HP Pavilion 15" mentions a product
name but is classified as an order-status query. -/
theorem chat_order_precedence_witness :
    (chat store0 t0 "ORDER1001 HP Pavilion 15" "guest" none).2.1 =
      some .orderStatus ∧
    (chat store0 t0 "ORDER1001 HP Pavilion 15" "guest" none).2.1 ≠
      some .productCard ∧
    (chat store0 t0 "ORDER1001 HP Pavilion 15" "guest" none).2.2 =
      orderStatusReply store0.orders
        (pyUpper (pyStrip "ORDER1001 HP Pavilion 15").data) :=
  chat_order_precedence store0 t0 "ORDER1001 HP Pavilion 15" "guest" none
    (by decide)

/-! ### Claim C7 (corrected) -/

/-- Counterexample to claim C7 as stated: on an empty chat message the
handler returns early (`if not msg: return ...`) without appending anything,
so the chat log of the seeded store stays empty instead of receiving a
record. -/
theorem chat_empty_message_cex :
    (chat store0 t0 "" "guest" none).1.history = [] ∧ store0.history = [] := by
  constructor
  · decide
  · decide

/-- Claim C7 (amended): for every invocation of the chat responder whose
message is non-empty after whitespace stripping, whichever classification
branch fires, a record `{time, user, message, reply}` is appended to the chat
log and the log is then truncated to its most recent 400 entries; an
empty-after-stripping message returns a fixed reply and leaves the log (and
the rest of the state) unchanged. -/
theorem chat_history_log (st : Store) (now message userIn : String)
    (oresp : Option String) :
    (chat st now message userIn oresp).1.history =
      (if pyStrip message = "" then st.history
       else takeLast 400 (st.history ++
        [⟨now, chatUser userIn, pyStrip message,
          (chat st now message userIn oresp).2.2⟩])) ∧
    (chat st now message userIn oresp).1.products = st.products ∧
    (chat st now message userIn oresp).1.orders = st.orders := by
  by_cases hm : pyStrip message = "" <;> simp [chat, hm]

/-! ### Claim C8 (corrected) -/

/-- If no order's id equals the stripped requested id, `updateFirstStatus`
finds nothing. -/
theorem updateFirstStatus_none (os : List Order) (oid stat : String)
    (h : ∀ o ∈ os, o.order_id ≠ oid) :
    updateFirstStatus os oid stat = none := by
  induction os with
  | nil => rfl
  | cons o rest ih =>
    have ho : (o.order_id == oid) = false := by
      simp [h o (List.mem_cons_self o rest)]
    simp only [updateFirstStatus, ho, Bool.false_eq_true, if_false]
    rw [ih (fun o' ho' => h o' (List.mem_cons_of_mem o ho'))]
    rfl

/-- `updateFirstStatus` overwrites exactly the status of the first matching
order. -/
theorem updateFirstStatus_first (oid stat : String) :
    ∀ (os : List Order) (j : Nat) (hj : j < os.length),
    (os.get ⟨j, hj⟩).order_id = oid →
    (∀ i (hi : i < j), (os.get ⟨i, Nat.lt_trans hi hj⟩).order_id ≠ oid) →
    updateFirstStatus os oid stat =
      some (os.set j { os.get ⟨j, hj⟩ with status := stat }) := by
  intro os
  induction os with
  | nil => intro j hj; exact absurd hj (by simp)
  | cons o rest ih =>
    intro j hj hmatch hfirst
    cases j with
    | zero =>
      have ho : (o.order_id == oid) = true := by simpa using hmatch
      simp [updateFirstStatus, ho]
    | succ j' =>
      have ho : (o.order_id == oid) = false := by
        simpa using hfirst 0 (Nat.succ_pos j')
      simp only [updateFirstStatus, ho, Bool.false_eq_true, if_false]
      rw [ih j' (Nat.lt_of_succ_lt_succ hj) hmatch
        (fun i hi => hfirst (i + 1) (Nat.succ_lt_succ hi))]
      rfl

/-- Counterexample to claim C8 as stated: `update_order` compares order ids
case-sensitively, so the request id "order1001" matches `demoOrder`'s id
"ORDER1001" case-insensitively yet the handler fails with `NotFound`. -/
theorem update_order_case_cex :
    (update_order store1 "order1001" "✅ Delivered").2 = false ∧
    (store1.orders.find? (fun o =>
      pyUpper o.order_id.data == pyUpper "order1001".data)).isSome = true := by
  constructor
  · decide
  · decide

/-- Claim C8 (amended): `update_status` strips both request fields, locates
the order by exact, case-sensitive `order_id` match, overwrites only that
order's `status` field with the stripped given text (no validation against an
allowed set), and returns `NotFound` when no order's id matches exactly. -/
theorem update_order_exact_match (st : Store) (oidIn statIn : String) :
    ((∀ o ∈ st.orders, o.order_id ≠ pyStrip oidIn) →
      update_order st oidIn statIn = (st, false)) ∧
    (∀ j (hj : j < st.orders.length),
      (st.orders.get ⟨j, hj⟩).order_id = pyStrip oidIn →
      (∀ i (hi : i < j),
        (st.orders.get ⟨i, Nat.lt_trans hi hj⟩).order_id ≠ pyStrip oidIn) →
      (update_order st oidIn statIn).2 = true ∧
      (update_order st oidIn statIn).1.orders =
        st.orders.set j
          { st.orders.get ⟨j, hj⟩ with status := pyStrip statIn } ∧
      (update_order st oidIn statIn).1.products = st.products ∧
      (update_order st oidIn statIn).1.history = st.history) := by
  constructor
  · intro h
    simp [update_order, updateFirstStatus_none st.orders (pyStrip oidIn)
      (pyStrip statIn) h]
  · intro j hj hmatch hfirst
    rw [show update_order st oidIn statIn =
        (⟨st.products,
          st.orders.set j
            { st.orders.get ⟨j, hj⟩ with status := pyStrip statIn },
          st.history⟩, true) by
      simp [update_order, updateFirstStatus_first (pyStrip oidIn)
        (pyStrip statIn) st.orders j hj hmatch hfirst]]
    exact ⟨rfl, rfl, rfl, rfl⟩

/-- Witness for C8: updating `demoOrder` (id "ORDER1001") with the exact id
succeeds and overwrites only its status. -/
theorem update_order_exact_match_witness :
    (update_order store1 "ORDER1001" "✅ Delivered").2 = true ∧
    (update_order store1 "ORDER1001" "✅ Delivered").1.orders =
      store1.orders.set 0
        { store1.orders.get ⟨0, by decide⟩ with
            status := pyStrip "✅ Delivered" } ∧
    (update_order store1 "ORDER1001" "✅ Delivered").1.products =
      store1.products ∧
    (update_order store1 "ORDER1001" "✅ Delivered").1.history =
      store1.history :=
  (update_order_exact_match store1 "ORDER1001" "✅ Delivered").2 0 (by decide)
    (by decide) (fun i hi => absurd hi (Nat.not_lt_zero i))

/-! ### Claim C9 -/

theorem sumPref_nil (pre : List Char) : sumPref pre [] = 0 := by
  simp [sumPref]

theorem sumPref_cons (pre : List Char) (o : Order) (os : List Order) :
    sumPref pre (o :: os) =
      (if pre.isPrefixOf (orderTimeStr o).data then o.total else 0)
        + sumPref pre os := by
  simp only [sumPref, List.filter_cons]
  split_ifs <;> simp

theorem foldl_reportsStep (td mp yp : List Char) (os : List Order) :
    ∀ (ts ms ys : ℤ) (cc : List (String × Nat)),
    os.foldl (reportsStep td mp yp) (ts, ms, ys, cc) =
      (ts + sumPref td os, ms + sumPref mp os, ys + sumPref yp os,
       os.foldl (fun m o => bumpCat m o.category) cc) := by
  induction os with
  | nil => intro ts ms ys cc; simp [sumPref_nil]
  | cons o os ih =>
    intro ts ms ys cc
    rw [List.foldl_cons, List.foldl_cons, ih]
    simp only [reportsStep, sumPref_cons, Prod.mk.injEq]
    refine ⟨?_, ?_, ?_, trivial⟩ <;> split_ifs <;> ring

theorem bumpCat_keys (m : List (String × Nat)) (k : String) :
    (bumpCat m k).map Prod.fst =
      if k ∈ m.map Prod.fst then m.map Prod.fst
      else m.map Prod.fst ++ [k] := by
  induction m with
  | nil => simp [bumpCat]
  | cons kv rest ih =>
    obtain ⟨a, v⟩ := kv
    by_cases ha : a = k
    · subst ha; simp [bumpCat]
    · simp only [bumpCat, if_neg ha, List.map_cons, ih]
      by_cases hm : k ∈ rest.map Prod.fst
      · simp [hm, ha, List.mem_cons, Ne.symm ha]
      · simp [hm, ha, List.mem_cons, Ne.symm ha]

theorem foldl_bumpCat_keys (os : List Order) :
    ∀ m : List (String × Nat),
    ((os.foldl (fun m o => bumpCat m o.category) m).map Prod.fst) =
      (os.map (fun o => o.category)).foldl
        (fun acc c => if c ∈ acc then acc else acc ++ [c])
        (m.map Prod.fst) := by
  induction os with
  | nil => intro m; simp
  | cons o os ih =>
    intro m
    rw [List.foldl_cons, List.map_cons, List.foldl_cons, ih, bumpCat_keys]

theorem lookupC_bumpCat (m : List (String × Nat)) (k k' : String) :
    lookupC (bumpCat m k) k' =
      if k' = k then lookupC m k' + 1 else lookupC m k' := by
  induction m with
  | nil =>
    by_cases h : k' = k
    · simp [bumpCat, lookupC, h]
    · simp [bumpCat, lookupC, h, Ne.symm h]
  | cons kv rest ih =>
    obtain ⟨a, v⟩ := kv
    by_cases ha : a = k
    · subst ha
      by_cases h' : k' = a
      · subst h'; simp [bumpCat, lookupC]
      · simp [bumpCat, lookupC, Ne.symm h', h']
    · by_cases h' : k' = a
      · subst h'
        simp [bumpCat, if_neg ha, lookupC, ha]
      · simp [bumpCat, if_neg ha, lookupC, Ne.symm h', h', ih]

theorem foldl_bumpCat_lookupC (os : List Order) :
    ∀ (m : List (String × Nat)) (k : String),
    lookupC (os.foldl (fun m o => bumpCat m o.category) m) k =
      lookupC m k + os.countP (fun o => o.category == k) := by
  induction os with
  | nil => intro m k; simp
  | cons o os ih =>
    intro m k
    rw [List.foldl_cons, ih, lookupC_bumpCat, List.countP_cons]
    by_cases h : k = o.category
    · simp only [h, if_pos rfl, beq_self_eq_true, if_true]
      omega
    · have hb : (o.category == k) = false := by
        simp [Ne.symm h]
      simp only [h, if_false, hb, Bool.false_eq_true]
      omega

theorem bumpCat_keys_nodup (m : List (String × Nat)) (k : String)
    (h : (m.map Prod.fst).Nodup) : ((bumpCat m k).map Prod.fst).Nodup := by
  rw [bumpCat_keys]
  by_cases hm : k ∈ m.map Prod.fst
  · simpa [hm] using h
  · simp only [hm, if_false]
    rw [List.nodup_append]
    exact ⟨h, List.nodup_singleton k, by simpa using hm⟩

theorem foldl_bumpCat_nodup (os : List Order) :
    ∀ m : List (String × Nat), (m.map Prod.fst).Nodup →
    ((os.foldl (fun m o => bumpCat m o.category) m).map Prod.fst).Nodup := by
  induction os with
  | nil => intro m h; simpa using h
  | cons o os ih =>
    intro m h
    rw [List.foldl_cons]
    exact ih _ (bumpCat_keys_nodup m o.category h)

theorem map_snd_eq_lookupC (m : List (String × Nat))
    (h : (m.map Prod.fst).Nodup) :
    m.map Prod.snd = (m.map Prod.fst).map (lookupC m) := by
  induction m with
  | nil => rfl
  | cons kv rest ih =>
    obtain ⟨a, v⟩ := kv
    rw [List.map_cons] at h
    have ha : a ∉ rest.map Prod.fst := (List.nodup_cons.mp h).1
    simp only [List.map_cons]
    congr 1
    · simp [lookupC]
    · rw [ih (List.nodup_cons.mp h).2]
      apply List.map_congr_left
      intro k' hk'
      have hne : ¬a = k' := fun he => ha (he ▸ hk')
      simp [lookupC, hne]

/-- Claim C9: for every orders collection and every 10-character as-of date,
the report aggregator returns `year` equal to the sum of `total` over exactly
the orders whose timestamp starts with the 4-character year prefix, and
similarly `month` (7-character prefix) and `today` (10-character prefix) — a
single order contributing to every bucket whose prefix matches
simultaneously — while the per-category figures are counts (not sums) whose
label list preserves first-seen category order. -/
theorem reports_bucketing (os : List Order) (d : String)
    (hd : d.data.length = 10) :
    (reports os d).year = sumPref (d.data.take 4) os ∧
    (reports os d).month = sumPref (d.data.take 7) os ∧
    (reports os d).today = sumPref (d.data.take 10) os ∧
    (reports os d).labels = firstSeen (os.map (fun o => o.category)) ∧
    (reports os d).counts = (reports os d).labels.map
      (fun c => os.countP (fun o => o.category == c)) := by
  have h10 : d.data.take 10 = d.data := by
    rw [← hd]; exact List.take_length d.data
  have hfold :=
    foldl_reportsStep d.data (d.data.take 7) (d.data.take 4) os 0 0 0 []
  have hnodup :
      ((os.foldl (fun m o => bumpCat m o.category) []).map Prod.fst).Nodup :=
    foldl_bumpCat_nodup os [] (by simp)
  have hlab : (reports os d).labels =
      (os.foldl (fun m o => bumpCat m o.category) []).map Prod.fst := by
    simp [reports, hfold]
  refine ⟨?_, ?_, ?_, ?_, ?_⟩
  · simp [reports, hfold]
  · simp [reports, hfold]
  · rw [h10]; simp [reports, hfold]
  · rw [hlab, foldl_bumpCat_keys os []]
    rfl
  · have hcnt : (reports os d).counts =
        (os.foldl (fun m o => bumpCat m o.category) []).map Prod.snd := by
      simp [reports, hfold]
    rw [hcnt, hlab, map_snd_eq_lookupC _ hnodup]
    apply List.map_congr_left
    intro c hc
    rw [foldl_bumpCat_lookupC]
    simp [lookupC]

/-- Witness for C9 on a concrete two-order collection and the as-of date
"2026-10-12". -/
theorem reports_bucketing_witness :
    ("2026-10-12".data.length = 10) ∧
    ((reports reportOrders "2026-10-12").year =
        sumPref ("2026-10-12".data.take 4) reportOrders ∧
      (reports reportOrders "2026-10-12").month =
        sumPref ("2026-10-12".data.take 7) reportOrders ∧
      (reports reportOrders "2026-10-12").today =
        sumPref ("2026-10-12".data.take 10) reportOrders ∧
      (reports reportOrders "2026-10-12").labels =
        firstSeen (reportOrders.map (fun o => o.category)) ∧
      (reports reportOrders "2026-10-12").counts =
        (reports reportOrders "2026-10-12").labels.map
          (fun c => reportOrders.countP (fun o => o.category == c))) :=
  ⟨by decide, reports_bucketing reportOrders "2026-10-12" (by decide)⟩

/-! ### Claim C4 -/

theorem digitChar_toNat_sub (m : Nat) (h : m < 10) :
    (Nat.digitChar m).toNat - 48 = m := by
  interval_cases m <;> decide

theorem digitChar_isDigit (m : Nat) (h : m < 10) :
    (Nat.digitChar m).isDigit = true := by
  interval_cases m <;> decide

theorem natDigits_ne_nil (n : Nat) : natDigits n ≠ [] := by
  unfold natDigits
  split <;> simp

theorem natDigits_all_digit (n : Nat) :
    ∀ c ∈ natDigits n, c.isDigit = true := by
  induction n using Nat.strong_induction_on with
  | _ n ih =>
    unfold natDigits
    split
    · intro c hc
      rw [List.mem_singleton] at hc
      subst hc
      exact digitChar_isDigit n (by omega)
    · intro c hc
      rw [List.mem_append] at hc
      cases hc with
      | inl h =>
        exact ih (n / 10) (Nat.div_lt_self (by omega) (by omega)) c h
      | inr h =>
        rw [List.mem_singleton] at h
        subst h
        exact digitChar_isDigit (n % 10) (Nat.mod_lt n (by omega))

theorem digitsVal_append_one (l : List Char) (c : Char) :
    digitsVal (l ++ [c]) = 10 * digitsVal l + (c.toNat - 48) := by
  simp [digitsVal, List.foldl_append]

theorem digitsVal_natDigits (n : Nat) : digitsVal (natDigits n) = n := by
  induction n using Nat.strong_induction_on with
  | _ n ih =>
    unfold natDigits
    split
    · next h =>
      simp [digitsVal, digitChar_toNat_sub n h]
    · next h =>
      rw [digitsVal_append_one,
        ih (n / 10) (Nat.div_lt_self (by omega) (by omega)),
        digitChar_toNat_sub (n % 10) (Nat.mod_lt n (by omega))]
      omega

theorem toDigitsCore_eq_natDigits :
    ∀ (fuel n : Nat) (ds : List Char), n < fuel →
    Nat.toDigitsCore 10 fuel n ds = natDigits n ++ ds := by
  intro fuel
  induction fuel with
  | zero => intro n ds h; exact absurd h (Nat.not_lt_zero n)
  | succ fuel ih =>
    intro n ds h
    show Nat.toDigitsCore 10 (fuel + 1) n ds = natDigits n ++ ds
    rw [Nat.toDigitsCore]
    by_cases hz : n / 10 = 0
    · have hn : n < 10 := by omega
      simp only [hz, if_pos rfl]
      unfold natDigits
      rw [dif_pos hn, Nat.mod_eq_of_lt hn]
      rfl
    · have hn : ¬n < 10 := by omega
      have hlt : n / 10 < fuel := by
        have := Nat.div_lt_self (n := n) (by omega) (by omega : 1 < 10)
        omega
      simp only [hz, if_neg hz]
      rw [ih (n / 10) (Nat.digitChar (n % 10) :: ds) hlt]
      conv_rhs => rw [natDigits]
      rw [dif_neg hn, List.append_assoc]
      rfl

theorem repr_data (n : Nat) : (Nat.repr n).data = natDigits n := by
  show (Nat.toDigits 10 n).asString.data = natDigits n
  rw [Nat.toDigits, toDigitsCore_eq_natDigits (n + 1) n [] (Nat.lt_succ_self n)]
  simp [List.asString]

theorem parse_orderId (n : Nat) :
    parse_price_any ("ORDER" ++ Nat.repr n) = n := by
  unfold parse_price_any
  rw [String.data_append, repr_data, List.filter_append]
  have h1 : "ORDER".data.filter Char.isDigit = [] := by decide
  have h2 : (natDigits n).filter Char.isDigit = natDigits n :=
    List.filter_eq_self.mpr (natDigits_all_digit n)
  rw [h1, h2, List.nil_append]
  have h3 : (natDigits n).isEmpty = false := by
    cases hd : natDigits n with
    | nil => exact absurd hd (natDigits_ne_nil n)
    | cons c t => rfl
  simp only [h3, Bool.false_eq_true, if_false]
  exact digitsVal_natDigits n

theorem add_order_orders_shape (taxRate : ℚ) (now : String) (st : Store)
    (nm u : String) :
    (add_order taxRate now st nm u).1.orders = st.orders ∨
    ∃ rec, (add_order taxRate now st nm u).1.orders = st.orders ++ [rec] ∧
      rec.order_id = "ORDER" ++ Nat.repr (1000 + st.orders.length + 1) := by
  cases hf : st.products.find? (fun p => p.name == pyStrip nm) with
  | none => left; simp [add_order, hf]
  | some prod =>
    by_cases hs : prod.stock ≤ 0
    · left; simp [add_order, hf, if_pos hs]
    · right
      refine ⟨{ order_id := "ORDER" ++ Nat.repr (1000 + st.orders.length + 1),
                user := pyStrip (if u = "" then "guest" else u),
                product := pyStrip nm, qty := 1,
                unit_price := parse_price_any prod.price, discount := 0,
                tax := taxRate,
                total := pyRound
                  ((parse_price_any prod.price : ℚ) * (1 + taxRate)),
                status := "✅ Confirmed", created_at := now, time := now,
                category := prod.category }, ?_, rfl⟩
      simp [add_order, hf, if_neg hs]

theorem IdScheme_append (os : List Order) (rec : Order) (h : IdScheme os)
    (hrec : rec.order_id = "ORDER" ++ Nat.repr (1000 + os.length + 1)) :
    IdScheme (os ++ [rec]) := by
  intro k hk
  rw [List.length_append, List.length_singleton] at hk
  by_cases hlt : k < os.length
  · rw [List.get_eq_getElem, List.getElem_append_left hlt]
    exact h k hlt
  · have hk' : k = os.length := by omega
    subst hk'
    rw [List.get_eq_getElem, List.getElem_concat_length os rec os.length rfl]
    exact hrec

theorem runOrders_IdScheme (taxRate : ℚ) :
    ∀ (reqs : List (String × String × String)) (st : Store),
    IdScheme st.orders → IdScheme (runOrders taxRate reqs st).orders := by
  intro reqs
  induction reqs with
  | nil => intro st h; exact h
  | cons r rest ih =>
    intro st h
    obtain ⟨now, nm, u⟩ := r
    show IdScheme (runOrders taxRate rest (add_order taxRate now st nm u).1).orders
    apply ih
    cases add_order_orders_shape taxRate now st nm u with
    | inl he => rw [he]; exact h
    | inr he =>
      obtain ⟨rec, he, hrec⟩ := he
      rw [he]
      exact IdScheme_append st.orders rec h hrec

/-- Claim C4: over any sequence of `/add_order` calls in one store lifetime
(starting from an empty orders collection, orders never deleted), each
successful call appends an order with
`order_id = "ORDER" + str(1000 + previous_order_count + 1)` (that is the
`IdScheme` numbering, the first id being "ORDER1001"), and the assigned ids
are pairwise distinct and strictly increasing (by numeric component) in
creation order. -/
theorem run_order_ids (taxRate : ℚ) (prods : List Product)
    (hist : List HistEntry) (reqs : List (String × String × String)) :
    IdScheme (runOrders taxRate reqs ⟨prods, [], hist⟩).orders ∧
    (∀ h0 : 0 < (runOrders taxRate reqs ⟨prods, [], hist⟩).orders.length,
      (((runOrders taxRate reqs ⟨prods, [], hist⟩).orders.get
        ⟨0, h0⟩).order_id = "ORDER1001")) ∧
    (∀ i j (hi : i < (runOrders taxRate reqs ⟨prods, [], hist⟩).orders.length)
      (hj : j < (runOrders taxRate reqs ⟨prods, [], hist⟩).orders.length),
      i < j →
      ((runOrders taxRate reqs ⟨prods, [], hist⟩).orders.get
          ⟨i, hi⟩).order_id ≠
        ((runOrders taxRate reqs ⟨prods, [], hist⟩).orders.get
          ⟨j, hj⟩).order_id ∧
      parse_price_any ((runOrders taxRate reqs ⟨prods, [], hist⟩).orders.get
          ⟨i, hi⟩).order_id <
        parse_price_any ((runOrders taxRate reqs ⟨prods, [], hist⟩).orders.get
          ⟨j, hj⟩).order_id) := by
  have hsch : IdScheme (runOrders taxRate reqs ⟨prods, [], hist⟩).orders :=
    runOrders_IdScheme taxRate reqs ⟨prods, [], hist⟩
      (fun k hk => absurd hk (Nat.not_lt_zero k))
  refine ⟨hsch, ?_, ?_⟩
  · intro h0
    rw [hsch 0 h0]
    decide
  · intro i j hi hj hij
    have hpi : parse_price_any
        (((runOrders taxRate reqs ⟨prods, [], hist⟩).orders.get
          ⟨i, hi⟩).order_id) = 1000 + i + 1 := by
      rw [hsch i hi]; exact parse_orderId (1000 + i + 1)
    have hpj : parse_price_any
        (((runOrders taxRate reqs ⟨prods, [], hist⟩).orders.get
          ⟨j, hj⟩).order_id) = 1000 + j + 1 := by
      rw [hsch j hj]; exact parse_orderId (1000 + j + 1)
    constructor
    · intro he
      rw [he] at hpi
      omega
    · rw [hpi, hpj]
      omega

/-- Witness for C4: two successful purchases from the seeded store yield ids
"ORDER1001" and "ORDER1002", distinct and numerically increasing. -/
theorem run_order_ids_witness :
    (((runOrders TAX_RATE demoReqs ⟨defaultProducts, [], []⟩).orders.get
      ⟨0, by decide⟩).order_id = "ORDER1001") ∧
    ((runOrders TAX_RATE demoReqs ⟨defaultProducts, [], []⟩).orders.get
        ⟨0, by decide⟩).order_id ≠
      ((runOrders TAX_RATE demoReqs ⟨defaultProducts, [], []⟩).orders.get
        ⟨1, by decide⟩).order_id ∧
    parse_price_any ((runOrders TAX_RATE demoReqs
        ⟨defaultProducts, [], []⟩).orders.get ⟨0, by decide⟩).order_id <
      parse_price_any ((runOrders TAX_RATE demoReqs
        ⟨defaultProducts, [], []⟩).orders.get ⟨1, by decide⟩).order_id :=
  ⟨(run_order_ids TAX_RATE defaultProducts [] demoReqs).2.1 (by decide),
   ((run_order_ids TAX_RATE defaultProducts [] demoReqs).2.2 0 1 (by decide)
     (by decide) (by decide)).1,
   ((run_order_ids TAX_RATE defaultProducts [] demoReqs).2.2 0 1 (by decide)
     (by decide) (by decide)).2⟩
